import Mathlib

/-!
Shallow embedding of the orchestration core of the exporter-agent repository
(src/orchestration/orchestrator.py and the agents it drives), together with
proofs of the frozen claims about it.

Modelling conventions:
* Python `Dict[str, str]` becomes an association list `List (String × String)`
  with insertion-ordered overwrite (`dictSet`), matching CPython dict
  semantics for the operations the code performs.
* Python exceptions become an explicit `PyError` sum returned through
  `Except`.  `ValueError` raised by `validate_metrics` is the repository's
  validation-failure condition (the retry loops catch exactly `ValueError`).
* External effects (LLM calls, subprocesses, the filesystem) are oracles
  passed in as explicit parameters; each call site of the source corresponds
  to one oracle application.
* Character classes of the source's regexes are modelled over ASCII, which is
  the range exercised by the repository's inputs.
-/

namespace ExporterAgent

/-- Python `str.strip` / `\s` whitespace over ASCII. -/
def isSpaceChar (c : Char) : Bool :=
  c = ' ' || c = '\t' || c = '\n' || c = '\r' || c = '\x0b' || c = '\x0c'

/-- The `\w` class of the source's regexes (ASCII range). -/
def isWordChar (c : Char) : Bool :=
  c.isAlphanum || c = '_'

/-- The `[\w\/\.]` class used for file paths in `_parse_coding_response`. -/
def isPathChar (c : Char) : Bool :=
  isWordChar c || c = '/' || c = '.'

/-- The backtick character (written via its code point). -/
def btick : Char := Char.ofNat 96

/-- Python `str.strip()` (ASCII whitespace). -/
def pyStrip (s : String) : String :=
  String.mk (((s.toList.dropWhile isSpaceChar).reverse.dropWhile isSpaceChar).reverse)

/-- Does `pat` occur as a contiguous run inside `s`? -/
def subOccurs (pat : List Char) : List Char → Bool
  | [] => pat.isEmpty
  | c :: cs => pat.isPrefixOf (c :: cs) || subOccurs pat cs

/-- Python `"pat" in s` substring containment. -/
def containsSub (s pat : String) : Bool :=
  subOccurs pat.toList s.toList

/-- CPython dict assignment `d[k] = v`: overwrite in place, else append. -/
def dictSet : List (String × String) → String → String → List (String × String)
  | [], k, v => [(k, v)]
  | (k', v') :: rest, k, v =>
    if k' = k then (k, v) :: rest else (k', v') :: dictSet rest k v

/-- `os.remove` on the modelled filesystem (no-op when the key is absent). -/
def dictRemove : List (String × String) → String → List (String × String)
  | [], _ => []
  | (k', v') :: rest, k =>
    if k' = k then rest else (k', v') :: dictRemove rest k

/-! ## Data model (src/models/schemas.py) -/

/-- A metric mapping as produced by the research agent.  The source treats it
as `Dict[str, str]` accessed with `.get`; we model the fields the code reads,
each `Option` because `.get` may miss. -/
structure Metric where
  name : Option String := none
  description : Option String := none
  mtype : Option String := none
  status : Option String := none
  sample_value : Option String := none
deriving Repr, DecidableEq

/-- `analyze_exporter_structure` output (src/utils/file_utils.py), carried
opaquely through the research result. -/
structure StructureInfo where
  main_file : Option String := none
  collector_files : List String := []
  package_name : Option String := none
  imports : List String := []
deriving Repr, DecidableEq

/-- `ResearchResult` (pydantic model). -/
structure ResearchResult where
  metrics : List Metric := []
  existing_code : List (String × String) := []
  structure_analysis : StructureInfo := {}
deriving Repr, DecidableEq

/-- `CodeArtifact` (pydantic model). -/
structure CodeArtifact where
  files : List (String × String)
deriving Repr, DecidableEq

/-- `ValidatedCodeArtifact` (pydantic model). -/
structure ValidatedCodeArtifact where
  files : List (String × String)
  validation_errors : List String := []
  formatted_code : Option String := none
deriving Repr, DecidableEq

/-- `TestResult` (pydantic model). -/
structure TestResult where
  passed : Bool
  output : String
deriving Repr, DecidableEq

/-- Python exception values the modelled code can raise. -/
inductive PyError where
  | valueError (msg : String)
  | validationError (msg : String)
  | codeGenerationError (msg : String)
  | nameError (msg : String)
deriving Repr, DecidableEq

/-! ## Metric Validator (orchestrator.py, `validate_metrics`) -/

/-- First character class of `^[a-zA-Z_:][a-zA-Z0-9_:]*$`. -/
def nameHeadOk (c : Char) : Bool :=
  c.isAlpha || c = '_' || c = ':'

/-- Tail character class of the metric-name regex. -/
def nameTailOk (c : Char) : Bool :=
  c.isAlphanum || c = '_' || c = ':'

/-- Whole-string match of `[a-zA-Z_:][a-zA-Z0-9_:]*`. -/
def nameBodyMatch : List Char → Bool
  | [] => false
  | c :: cs => nameHeadOk c && cs.all nameTailOk

/-- Python `re.match(r'^[a-zA-Z_:][a-zA-Z0-9_:]*$', name)`: in Python `$`
also matches just before a single trailing newline. -/
def pyFullMatchName (s : String) : Bool :=
  let cs := s.toList
  nameBodyMatch cs ||
    (match cs.getLast? with
     | some c => c = '\n' && nameBodyMatch cs.dropLast
     | none => false)

/-- Rendering of Python `f"...{metric.get('type')}"` (prints `None` for a
missing key). -/
def pyShowOpt : Option String → String
  | some s => s
  | none => "None"

/-- Membership test `metric.get("type") in {"gauge", "counter", "histogram"}`. -/
def typeAllowed (t : Option String) : Bool :=
  t = some "gauge" || t = some "counter" || t = some "histogram"

/-- `Orchestrator.validate_metrics` (orchestrator.py lines 60-69). -/
def validate_metrics : List Metric → Except PyError Unit
  | [] => .ok ()
  | m :: ms =>
    let name := m.name.getD ""
    if ¬ pyFullMatchName name then
      .error (.valueError ("Invalid metric name: " ++ name))
    else if m.description.getD "" = "" then
      .error (.valueError "All metrics must have descriptions")
    else if ¬ typeAllowed m.mtype then
      .error (.valueError ("Invalid metric type: " ++ pyShowOpt m.mtype))
    else
      validate_metrics ms

/-- The condition under which `validate_metrics` accepts one metric. -/
def metricOk (m : Metric) : Bool :=
  pyFullMatchName (m.name.getD "") &&
    (m.description.getD "" != "") && typeAllowed m.mtype

/-- The error `validate_metrics` raises at an offending metric. -/
def metricError (m : Metric) : PyError :=
  if ¬ pyFullMatchName (m.name.getD "") then
    .valueError ("Invalid metric name: " ++ m.name.getD "")
  else if m.description.getD "" = "" then
    .valueError "All metrics must have descriptions"
  else
    .valueError ("Invalid metric type: " ++ pyShowOpt m.mtype)

/-! ## Research agent (src/agents/research_agent.py) -/

/-- The outcome of `json.loads(response.content)` followed by reading the
`metrics` key: the parsed object is modelled as its field table (values
narrowed to metric lists, the shape pydantic requires).  `none` models a
`json.JSONDecodeError`. -/
structure ParsedDoc where
  fields : List (String × List Metric)
deriving Repr, DecidableEq

/-- `data.get("metrics", [])`. -/
def ParsedDoc.metricsOrEmpty (d : ParsedDoc) : List Metric :=
  (d.fields.lookup "metrics").getD []

/-- The hard-coded fallback metric of `ResearchAgent.research_system`. -/
def placeholderMetric : Metric :=
  { name := some "aws_connect_queue_length"
    description := some "Number of calls waiting in queue"
    sample_value := some "10"
    mtype := some "gauge" }

/-- The hard-coded fallback metric of
`ResearchAgent.research_with_existing_code`. -/
def extensionPlaceholderMetric : Metric :=
  { name := some "example_metric"
    description := some "Example metric"
    sample_value := some "10"
    mtype := some "gauge"
    status := some "new" }

/-- `ResearchAgent.research_system` (research_agent.py lines 17-42): the LLM
response's parse outcome is the oracle argument. -/
def research_system (parsed : Option ParsedDoc) : ResearchResult :=
  match parsed with
  | some data => { metrics := data.metricsOrEmpty }
  | none => { metrics := [placeholderMetric] }

/-- `ResearchAgent.research_with_existing_code` (research_agent.py lines
44-100). -/
def research_with_existing_code (existing_code : List (String × String))
    (structure_analysis : StructureInfo) (parsed : Option ParsedDoc) :
    ResearchResult :=
  match parsed with
  | some data =>
    { metrics := data.metricsOrEmpty
      existing_code := existing_code
      structure_analysis := structure_analysis }
  | none =>
    { metrics := [extensionPlaceholderMetric]
      existing_code := existing_code
      structure_analysis := structure_analysis }

/-! ## Research retry loops (orchestrator.py, `_retry_research` and
`_research_with_existing_code`) -/

/-- One oracle per LLM attempt: the parse outcome of the response returned
on attempt `i`. -/
def ResearchOracle : Type := Nat → Option ParsedDoc

/-- The body of the `for attempt in range(max_retries)` loop shared by both
research retry functions, abstracted over the per-attempt research result.
`remaining` is the number of loop iterations still available (`remaining = 0`
never arises for the actual call, which enters with `max_retries = 3`; the
Python loop would fall through returning `None` there).  Returns the research
result together with the number of LLM attempts made and the number of
`asyncio.sleep(1)` calls performed. -/
def research_attempts (agentCall : Nat → ResearchResult) :
    Nat → Nat → Nat → Except PyError (ResearchResult × Nat × Nat)
  | attempt, sleeps, remaining + 1 =>
    let research := agentCall attempt
    match validate_metrics research.metrics with
    | .ok () => .ok (research, attempt + 1, sleeps)
    | .error e =>
      if remaining = 0 then .error e
      else research_attempts agentCall (attempt + 1) (sleeps + 1) remaining
  | _, _, 0 => .error (.nameError "loop fell through")

/-- `Orchestrator._retry_research` (orchestrator.py lines 280-299) with its
default `max_retries = 3` (never overridden by the caller). -/
def retry_research (oracle : ResearchOracle) :
    Except PyError (ResearchResult × Nat × Nat) :=
  research_attempts (fun i => research_system (oracle i)) 0 0 3

/-- `Orchestrator._research_with_existing_code` (orchestrator.py lines
301-330) with its local `max_retries = 3`. -/
def retry_research_existing (existing_code : List (String × String))
    (structure_analysis : StructureInfo) (oracle : ResearchOracle) :
    Except PyError (ResearchResult × Nat × Nat) :=
  research_attempts
    (fun i => research_with_existing_code existing_code structure_analysis
      (oracle i)) 0 0 3

/-! ## Multi-file response parsing (src/agents/coding_agent.py,
`_parse_coding_response`)

The primary pattern is

  ```(?:go)?\s*(?:filepath=([\w\/\.]+))?\s*\n(.*?)```   (DOTALL)

scanned with `re.findall`.  The functions below implement exactly the
backtracking semantics of that pattern: the optional `go` is preferred when
present, the greedy `\s*` runs combined with the literal `\n` consume
whitespace up to and including the *last* newline of the whitespace run, a
`filepath=` annotation can only sit immediately after the first whitespace
run (since `f` is not whitespace), and the lazy group captures up to the
first closing triple backtick. -/

/-- Does the text start with three backticks? -/
def isFenceStart : List Char → Bool
  | c1 :: c2 :: c3 :: _ => c1 = btick && c2 = btick && c3 = btick
  | _ => false

/-- Split an (all-whitespace) run `w` as `consumed ++ rest` where `consumed`
ends at the last newline of `w` and `rest` is newline-free; `none` when `w`
has no newline.  This is what the greedy `\s*` followed by a literal `\n`
consumes under backtracking. -/
def splitAfterLastNewline : List Char → Option (List Char × List Char)
  | [] => none
  | c :: cs =>
    match splitAfterLastNewline cs with
    | some (p, s) => some (c :: p, s)
    | none => if c = '\n' then some ([c], cs) else none

/-- The un-annotated branch of the header pattern (`\s*\s*\n` under
backtracking): consume whitespace up to and including the last newline of
the initial whitespace run `w`, leaving the rest of the run and `afterW`. -/
def headerFallback (w afterW : List Char) : Option (String × List Char) :=
  match splitAfterLastNewline w with
  | some (_, rest) => some ("", rest ++ afterW)
  | none => none

/-- Match `\s*(?:filepath=([\w\/\.]+))?\s*\n` at the head of `ds`, returning
the captured path (`""` when the group did not participate) and the rest of
the input.  Mirrors the regex backtracking: the annotated branch is tried
first; if it cannot complete, the un-annotated branch consumes whitespace up
to the last newline of the initial whitespace run. -/
def matchHeader (ds : List Char) : Option (String × List Char) :=
  let w := ds.takeWhile isSpaceChar
  let afterW := ds.dropWhile isSpaceChar
  if ("filepath=".toList).isPrefixOf afterW then
    let afterKey := afterW.drop 9
    let path := afterKey.takeWhile isPathChar
    if path = [] then headerFallback w afterW
    else
      let afterPath := afterKey.dropWhile isPathChar
      let w2 := afterPath.takeWhile isSpaceChar
      match splitAfterLastNewline w2 with
      | some (_, rest2) => some (String.mk path, rest2 ++ afterPath.dropWhile isSpaceChar)
      | none => headerFallback w afterW
  else headerFallback w afterW

/-- The lazy `(.*?)` up to the first closing triple backtick: splits
`l = content ++ fence ++ rest` at the first fence, or fails. -/
def takeUntilFence : List Char → Option (List Char × List Char)
  | [] => none
  | c :: cs =>
    if isFenceStart (c :: cs) then some ([], cs.drop 2)
    else
      match takeUntilFence cs with
      | some (t, r) => some (c :: t, r)
      | none => none

/-- One attempt at the header-plus-content part of the fenced-block
pattern, from a fixed start position: the header, then the lazy content up
to the closing fence. -/
def attemptFence (ds : List Char) : Option (String × String × List Char) :=
  (matchHeader ds).bind fun ph =>
    (takeUntilFence ph.2).map fun cr => (ph.1, String.mk cr.1, cr.2)

/-- Match the part of the fenced-block pattern after the opening backticks:
optional `go` (preferred when present), the header, the lazy content, the
closing fence.  Returns (captured path, raw captured content, rest after
the match). -/
def matchAfterFence (cs : List Char) : Option (String × String × List Char) :=
  match cs with
  | 'g' :: 'o' :: ds =>
    match attemptFence ds with
    | some r => some r
    | none => attemptFence cs
  | _ => attemptFence cs

/-- Fuelled `re.findall` scan for the fenced-block pattern: at each position
attempt a match; on success continue after the match, otherwise advance one
character.  Fuel is the remaining input length, which suffices. -/
def scanGo : Nat → List Char → List (String × String)
  | 0, _ => []
  | _ + 1, [] => []
  | fuel + 1, c :: rest =>
    if isFenceStart (c :: rest) then
      match matchAfterFence (rest.drop 2) with
      | some (p, content, r) => (p, content) :: scanGo fuel r
      | none => scanGo fuel rest
    else scanGo fuel rest

/-- All fenced-block matches of the response text. -/
def scanBlocks (cs : List Char) : List (String × String) :=
  scanGo cs.length cs

/-! The secondary pattern `// ([\w\/\.]+)\n(.*?)(?=// [\w\/\.]+|\Z)`. -/

/-- Does the zero-width lookahead `// [\w\/\.]` match here? -/
def isAltMarker : List Char → Bool
  | '/' :: '/' :: ' ' :: d :: _ => isPathChar d
  | _ => false

/-- Lazy content up to the next `// path` marker (not consumed) or end. -/
def takeUntilMarker : List Char → List Char × List Char
  | [] => ([], [])
  | c :: cs =>
    if isAltMarker (c :: cs) then ([], c :: cs)
    else
      let (t, r) := takeUntilMarker cs
      (c :: t, r)

/-- Match `// path\n content` at the head of the input. -/
def altMatchAt (cs : List Char) : Option (String × String × List Char) :=
  match cs with
  | '/' :: '/' :: ' ' :: ds =>
    let path := ds.takeWhile isPathChar
    if path = [] then none
    else
      match ds.dropWhile isPathChar with
      | '\n' :: rest =>
        let (content, rest2) := takeUntilMarker rest
        some (String.mk path, String.mk content, rest2)
      | _ => none
  | _ => none

/-- Fuelled `re.findall` scan for the secondary pattern. -/
def scanAltGo : Nat → List Char → List (String × String)
  | 0, _ => []
  | _ + 1, [] => []
  | fuel + 1, c :: rest =>
    match altMatchAt (c :: rest) with
    | some (p, content, r) => (p, content) :: scanAltGo fuel r
    | none => scanAltGo fuel rest

/-- All matches of the secondary path-comment pattern. -/
def scanAlt (cs : List Char) : List (String × String) :=
  scanAltGo cs.length cs

/-- Route a block with no explicit path annotation by its content markers
(coding_agent.py lines 140-146); `target` is the configured module name. -/
def guessPath (target : String) (content : String) : String :=
  if containsSub content "func main(" then "cmd/" ++ target ++ "/main.go"
  else if containsSub content "TestMetrics" then "exporter_test.go"
  else "exporter.go"

/-- Build the `files` dict from the fenced-block matches (coding_agent.py
lines 137-148): resolve the path, strip the content, assign. -/
def filesFromBlocks (target : String) (blocks : List (String × String)) :
    List (String × String) :=
  blocks.foldl
    (fun acc pc =>
      let path := if pc.1 = "" then guessPath target pc.2 else pc.1
      dictSet acc path (pyStrip pc.2))
    []

/-- Build the `files` dict from the secondary-pattern matches
(coding_agent.py lines 152-157). -/
def filesFromAlt (blocks : List (String × String)) : List (String × String) :=
  blocks.foldl (fun acc pc => dictSet acc pc.1 (pyStrip pc.2)) []

/-- `CodingAgent._parse_coding_response` (coding_agent.py lines 121-159). -/
def parse_coding_response (target : String) (content : String) :
    List (String × String) :=
  let files := filesFromBlocks target (scanBlocks content.toList)
  if files.isEmpty then filesFromAlt (scanAlt content.toList)
  else files

/-! ## Coding agent (src/agents/coding_agent.py) -/

/-- `dict(existing)` updated with every parsed file (coding_agent.py lines
95-97): new/modified files overwrite by path. -/
def mergeFiles (existing newFiles : List (String × String)) :
    List (String × String) :=
  newFiles.foldl (fun acc kv => dictSet acc kv.1 kv.2) existing

/-- `CodingAgent._create_new_exporter` (coding_agent.py lines 33-59); `resp`
is the LLM response content, `target` the configured module name.  The second
component counts LLM calls. -/
def create_new_exporter (target resp : String) : CodeArtifact × Nat :=
  let files := parse_coding_response target resp
  if files.isEmpty then ({ files := [("exporter.go", resp)] }, 1)
  else ({ files := files }, 1)

/-- `CodingAgent._extend_exporter` (coding_agent.py lines 61-100). -/
def extend_exporter (target : String) (research : ResearchResult)
    (resp : String) : CodeArtifact × Nat :=
  let new_metrics := research.metrics.filter (fun m => m.status = some "new")
  if new_metrics.isEmpty then ({ files := research.existing_code }, 0)
  else
    let modified := parse_coding_response target resp
    ({ files := mergeFiles research.existing_code modified }, 1)

/-- `CodingAgent.generate_exporter` (coding_agent.py lines 17-31): branches
on the truthiness of `research.existing_code`. -/
def generate_exporter (target : String) (research : ResearchResult)
    (resp : String) : CodeArtifact × Nat :=
  if research.existing_code.isEmpty then create_new_exporter target resp
  else extend_exporter target research resp

/-- `CodingAgent.generate_tests` (coding_agent.py lines 102-119). -/
def generate_tests (target resp : String) : CodeArtifact × Nat :=
  let files := parse_coding_response target resp
  if files.isEmpty then ({ files := [("exporter_test.go", resp)] }, 1)
  else ({ files := files }, 1)

/-! ## Validation agent (src/agents/validation_agent.py) -/

/-- Environment oracle for `validate_code`: `toolRun tool filename` is the
`(success, stdout+stderr)` pair `run_ide_command` observes, and
`mutated filename written` is the file content found on re-read after the
tools ran over it (e.g. the auto-formatter rewriting the file). -/
structure ValWorld where
  toolRun : String → String → Bool × String
  mutated : String → String → String

/-- The error strings appended for one file by the four tool runs
(validation_agent.py lines 36-51): format/vet/security on failure, lint
whenever it produced output. -/
def fileToolErrors (w : ValWorld) (filename : String) : List String :=
  let fmt := w.toolRun "format" filename
  let vet := w.toolRun "vet" filename
  let lint := w.toolRun "lint" filename
  let sec := w.toolRun "security" filename
  (if ¬ fmt.1 then ["Format errors in " ++ filename ++ ":\n" ++ fmt.2] else [])
    ++ (if ¬ vet.1 then ["Vet errors in " ++ filename ++ ":\n" ++ vet.2] else [])
    ++ (if lint.2 ≠ "" then ["Lint warnings in " ++ filename ++ ":\n" ++ lint.2] else [])
    ++ (if ¬ sec.1 then ["Security issues in " ++ filename ++ ":\n" ++ sec.2] else [])

/-- One iteration of the per-file loop of `validate_code`: write the file,
run the tools (which may rewrite it), append errors, re-read the file into
the single `formatted_code` slot. -/
def validateFileStep (w : ValWorld)
    (acc : List String × Option String × List (String × String))
    (file : String × String) :
    List String × Option String × List (String × String) :=
  let fs1 := dictSet acc.2.2 file.1 file.2
  let fs2 := dictSet fs1 file.1 (w.mutated file.1 file.2)
  (acc.1 ++ fileToolErrors w file.1, fs2.lookup file.1, fs2)

/-- `ValidationAgent.validate_code` (validation_agent.py lines 28-60) over an
explicit filesystem `fs0`; returns the validated artifact and the final
filesystem after the conditional cleanup, which removes every temporary file
written during the call iff at least one validation error was recorded. -/
def validate_code (w : ValWorld) (fs0 : List (String × String))
    (artifact : CodeArtifact) :
    ValidatedCodeArtifact × List (String × String) :=
  let r := artifact.files.foldl (validateFileStep w) ([], none, fs0)
  let validated : ValidatedCodeArtifact :=
    { files := artifact.files, validation_errors := r.1,
      formatted_code := r.2.1 }
  let temp_files := artifact.files.map (·.1)
  let fsFinal :=
    if validated.validation_errors.isEmpty then r.2.2
    else temp_files.foldl dictRemove r.2.2
  (validated, fsFinal)

/-! ## Testing agent (src/agents/testing_agent.py) -/

/-- Outcome of a `subprocess.run`: exit code with captured output, or a
process-level exception rendered as its text. -/
structure ProcResult where
  returncode : Int
  stdout : String
  stderr : String
deriving Repr, DecidableEq

/-- `EnhancedTestingAgent.run_tests` (testing_agent.py lines 13-27): a
non-zero exit or an exception both yield `passed = false`, never a raise. -/
def run_tests (outcome : Except String ProcResult) : TestResult :=
  match outcome with
  | .ok r => { passed := r.returncode = 0, output := r.stdout ++ r.stderr }
  | .error exc => { passed := false, output := exc }

/-! ## Fix loop (orchestrator.py lines 128-136 and `fix_code_errors`) -/

/-- Environment for the fix loop: `llmFix` is the coding LLM's response to
the fix prompt built from the error list and formatted code;
`revalidate k a` is the `validate_code` outcome for artifact `a` on the
`k`-th re-validation (the external tools may answer differently per call). -/
structure FixEnv where
  llmFix : List String → Option String → String
  revalidate : Nat → CodeArtifact → ValidatedCodeArtifact

/-- `Orchestrator.fix_code_errors` (orchestrator.py lines 252-266): wrap the
LLM's single returned source text as a one-file `CodeArtifact` and re-run the
Validation Phase on it. -/
def fix_code_errors (env : FixEnv) (k : Nat)
    (validated : ValidatedCodeArtifact) : ValidatedCodeArtifact :=
  let fixed := env.llmFix validated.validation_errors validated.formatted_code
  env.revalidate k { files := [("exporter.go", fixed)] }

/-- The `while validated.validation_errors and retries < self.max_retries`
loop (orchestrator.py lines 128-132), returning the final retry counter and
artifact. -/
def fixLoop (env : FixEnv) (max_retries : Nat) :
    Nat → ValidatedCodeArtifact → Nat × ValidatedCodeArtifact
  | retries, v =>
    if h : ¬ v.validation_errors.isEmpty ∧ retries < max_retries then
      fixLoop env max_retries (retries + 1) (fix_code_errors env retries v)
    else (retries, v)
termination_by retries _ => max_retries - retries
decreasing_by
  simp_wf
  omega

/-- Lines 128-136 of `run_agents`: the fix loop followed by the fatal
`ValidationError` when errors remain. -/
def fixPhase (env : FixEnv) (max_retries : Nat)
    (validated : ValidatedCodeArtifact) :
    Except PyError ValidatedCodeArtifact :=
  let r := fixLoop env max_retries 0 validated
  if r.2.validation_errors.isEmpty then .ok r.2
  else
    .error (.validationError
      ("Failed to generate valid code after " ++ toString max_retries ++
        " attempts"))

/-! ## Environment setup (orchestrator.py, `_setup_go_environment`) -/

/-- The fixed dependency list (orchestrator.py lines 200-207). -/
def go_deps : List String :=
  ["github.com/prometheus/client_golang/prometheus",
   "github.com/prometheus/client_golang/prometheus/promhttp",
   "github.com/aws/aws-sdk-go/aws",
   "github.com/aws/aws-sdk-go/aws/session",
   "github.com/aws/aws-sdk-go/service/connect",
   "gopkg.in/alecthomas/kingpin.v2"]

/-- Oracle for the external commands of `_setup_go_environment`:
`.error exc` models the fan-out / process-launch infrastructure itself
raising; `.ok r` a completed command with its exit code and output
(non-zero exit codes are only logged, never raised). -/
structure SetupWorld where
  modInit : Except String ProcResult
  depFetch : String → Except String ProcResult
  tidy : Except String ProcResult

/-- `Orchestrator._setup_go_environment` (orchestrator.py lines 185-250).
The `try` block only logs non-zero exit codes; an exception inside it is
converted to a `CodeGenerationError`.  When the `try` block completes, the
function then executes the trailing `return` statement (lines 244-250) whose
dictionary literal references the names `research`, `validated`,
`test_result`, `dashboard_design` and `alert_suggestions`, none of which is
bound in this function — CPython raises `NameError` there, outside the
`try`, so it propagates uncaught. -/
def setup_go_environment (w : SetupWorld) : Except PyError Unit :=
  let tryBlock : Except String Unit := do
    let _ ← w.modInit
    let _ ← go_deps.mapM w.depFetch
    let _ ← w.tidy
    pure ()
  match tryBlock with
  | .error exc =>
    .error (.codeGenerationError ("Failed to set up Go environment: " ++ exc))
  | .ok () => .error (.nameError "name research is not defined")

/-! ## Orchestrator pipeline (orchestrator.py, `run_agents`) -/

/-- The final result bundle of `run_agents` (orchestrator.py lines
173-179). -/
structure RunBundle where
  research : ResearchResult
  code : ValidatedCodeArtifact
  test_result : TestResult
  dashboard : String
  alerts : String
deriving Repr, DecidableEq

/-- Every external collaborator `run_agents` touches, as one oracle record.
`extendInput = some (code, analysis)` selects extension mode with the given
loaded files (the excluded file utilities); `none` selects create mode. -/
structure RunWorld where
  target : String
  max_retries : Nat
  extendInput : Option (List (String × String) × StructureInfo)
  researchOracle : ResearchOracle
  codingResp : String
  setup : SetupWorld
  valWorld : ValWorld
  fs0 : List (String × String)
  fixEnv : FixEnv
  testsResp : String
  testOutcome : Except String ProcResult
  dashboardResp : String
  alertResp : String

/-- `Orchestrator.run_agents` (orchestrator.py lines 71-183).  Every phase
appears in source order; the `except Exception` at the bottom of the Python
function logs and re-raises, i.e. is the identity on the propagated error. -/
def run_agents (w : RunWorld) : Except PyError RunBundle := do
  let research ←
    match w.extendInput with
    | some (existing_code, structure_analysis) =>
      if existing_code.isEmpty then
        Except.error (.valueError "No valid Go files found in the specified path")
      else
        (retry_research_existing existing_code structure_analysis
          w.researchOracle).map (·.1)
    | none => (retry_research w.researchOracle).map (·.1)
  let exporter_artifact := (generate_exporter w.target research w.codingResp).1
  let _ ← setup_go_environment w.setup
  let validated := (validate_code w.valWorld w.fs0 exporter_artifact).1
  let fixed ← fixPhase w.fixEnv w.max_retries validated
  let test_artifact := (generate_tests w.target w.testsResp).1
  let allFiles := mergeFiles exporter_artifact.files test_artifact.files
  let test_result := run_tests w.testOutcome
  -- on failure a best-effort diagnostic LLM call is made and its text
  -- printed; it touches neither `test_result` nor the bundle
  let _ := allFiles
  return { research := research, code := fixed, test_result := test_result,
           dashboard := w.dashboardResp, alerts := w.alertResp }

/-! ## Helper lemmas -/

theorem lookup_cons_pair (k0 v0 k : String) (tl : List (String × String)) :
    List.lookup k ((k0, v0) :: tl) =
      if k = k0 then some v0 else List.lookup k tl := by
  by_cases h : k = k0
  · subst h; simp [List.lookup]
  · rw [if_neg h]
    simp [List.lookup, beq_false_of_ne h]

theorem lookup_dictSet (d : List (String × String)) (k v k' : String) :
    (dictSet d k v).lookup k' = if k' = k then some v else d.lookup k' := by
  induction d with
  | nil =>
    by_cases h : k' = k <;> simp [dictSet, lookup_cons_pair, h]
  | cons hd tl ih =>
    obtain ⟨k0, v0⟩ := hd
    by_cases h0 : k0 = k
    · subst h0
      by_cases h : k' = k0 <;> simp [dictSet, lookup_cons_pair, h]
    · rw [dictSet, if_neg h0, lookup_cons_pair]
      by_cases h : k' = k0
      · subst h
        rw [if_pos rfl, if_neg h0, lookup_cons_pair, if_pos rfl]
      · rw [if_neg h, ih, lookup_cons_pair, if_neg h]

/-- Unfolding of `validate_metrics` on a cons in terms of `metricOk` and
`metricError`. -/
theorem validate_metrics_cons (m : Metric) (ms : List Metric) :
    validate_metrics (m :: ms) =
      if metricOk m then validate_metrics ms else .error (metricError m) := by
  rw [validate_metrics, metricOk, metricError]
  by_cases h1 : pyFullMatchName (m.name.getD "") = true
  · by_cases h2 : m.description.getD "" = ""
    · simp [h1, h2]
    · by_cases h3 : typeAllowed m.mtype = true
      · simp [h1, h2, h3]
      · simp [h1, h2, h3]
  · simp only [Bool.not_eq_true] at h1
    simp [h1]

/-- `validate_metrics` succeeds exactly when every metric satisfies
`metricOk`. -/
theorem validate_metrics_ok_iff (ms : List Metric) :
    validate_metrics ms = .ok () ↔ ∀ m ∈ ms, metricOk m = true := by
  induction ms with
  | nil => simp [validate_metrics]
  | cons m ms ih =>
    rw [validate_metrics_cons]
    by_cases h : metricOk m = true
    · simp [h, ih]
    · simp only [Bool.not_eq_true] at h
      simp [h]

/-- On failure, `validate_metrics` raises at the first offending metric, with
the message of the first rule that metric violates. -/
theorem validate_metrics_error (ms : List Metric) (e : PyError) :
    validate_metrics ms = .error e →
      ∃ pre m post, ms = pre ++ m :: post ∧
        (∀ m' ∈ pre, metricOk m' = true) ∧ metricOk m = false ∧
        e = metricError m := by
  induction ms with
  | nil => simp [validate_metrics]
  | cons m ms ih =>
    rw [validate_metrics_cons]
    by_cases hok : metricOk m = true
    · rw [if_pos hok]
      intro h
      obtain ⟨pre, m', post, rfl, hpre, hm', he⟩ := ih h
      refine ⟨m :: pre, m', post, rfl, ?_, hm', he⟩
      intro x hx
      rcases List.mem_cons.mp hx with rfl | hx
      · exact hok
      · exact hpre x hx
    · rw [if_neg hok]
      intro h
      exact ⟨[], m, ms, rfl, by simp, by simpa using hok,
        (Except.error.inj h).symm⟩

/-! ## Claim C2 -/

/-- C2 (counterexample to the claim as stated): on a metric named `qlen`
with a missing description, `validate_metrics` fails with the fixed message
`All metrics must have descriptions`, which does not name the metric — so it
is not true that every failure message names the offending metric. -/
theorem claim2_counterexample :
    validate_metrics [{ name := some "qlen", mtype := some "gauge" }] =
      .error (.valueError "All metrics must have descriptions") ∧
    containsSub "All metrics must have descriptions" "qlen" = false := by
  constructor
  · rfl
  · rfl

/-- C2 (amended): `validate_metrics` returns normally iff every metric has a
name matching `^[a-zA-Z_:][a-zA-Z0-9_:]*$` (Python `re.match` semantics, so a
single trailing newline is tolerated by `$`), a non-empty description and a
type in {gauge, counter, histogram}; otherwise it fails, with no side
effects, at the first offending metric in sequence order with a
`ValueError` identifying the first violated rule: the bad-name message
carries the offending name, the bad-type message carries the offending type
value, and the missing-description message is the fixed text
`All metrics must have descriptions` (which does not name the metric). -/
theorem claim2_validate_metrics (ms : List Metric) :
    (validate_metrics ms = .ok () ↔ ∀ m ∈ ms, metricOk m = true) ∧
    (∀ e, validate_metrics ms = .error e →
      ∃ pre m post, ms = pre ++ m :: post ∧
        (∀ m' ∈ pre, metricOk m' = true) ∧ metricOk m = false ∧
        e = metricError m) :=
  ⟨validate_metrics_ok_iff ms, fun e => validate_metrics_error ms e⟩

/-- C2 witness: the amended theorem applied to a concrete bad-typed metric
after a good one. -/
theorem claim2_witness :
    ∃ pre m post,
      [({ name := some "up", description := some "d", mtype := some "gauge" }
          : Metric),
        { name := some "dn", description := some "d", mtype := some "meter" }]
        = pre ++ m :: post ∧
      (∀ m' ∈ pre, metricOk m' = true) ∧ metricOk m = false ∧
      PyError.valueError "Invalid metric type: meter" = metricError m :=
  (claim2_validate_metrics _).2 _ (by rfl)

/-! ## Claim C10 -/

/-- C10: `validate_metrics` accepts the empty sequence, a parsed research
response without a `metrics` key yields the empty metric list (the
`data.get("metrics", [])` default), and with such a response the research
phase succeeds on the first attempt with zero sleeps, handing an empty metric
set onward to code generation. -/
theorem claim10_empty_metrics_pass (d : ParsedDoc)
    (h : d.fields.lookup "metrics" = none) :
    validate_metrics [] = .ok () ∧
    (research_system (some d)).metrics = [] ∧
    retry_research (fun _ => some d) =
      .ok (research_system (some d), 1, 0) := by
  have hm : (research_system (some d)).metrics = [] := by
    simp [research_system, ParsedDoc.metricsOrEmpty, h]
  refine ⟨rfl, hm, ?_⟩
  rw [retry_research, research_attempts, hm]
  rfl

/-- C10 witness at the concrete parsed document `{"other": []}`. -/
theorem claim10_witness :
    validate_metrics [] = .ok () ∧
    (research_system (some ⟨[("other", [])]⟩)).metrics = [] ∧
    retry_research (fun _ => some ⟨[("other", [])]⟩) =
      .ok (research_system (some ⟨[("other", [])]⟩), 1, 0) :=
  claim10_empty_metrics_pass ⟨[("other", [])]⟩ (by rfl)

/-! ## Claim C8 -/

/-- C8: JSON parse failure never raises but degrades to the documented
fallbacks: fresh-mode research returns exactly the hard-coded placeholder
metric; extension-mode research returns exactly one placeholder metric with
status `new` while still carrying `existing_code` and `structure_analysis`;
a code-generation response from which no files can be parsed is stored whole
under the single default file name `exporter.go`. -/
theorem claim8_parse_failure_fallbacks :
    research_system none = { metrics := [placeholderMetric] } ∧
    (research_system none).metrics.length = 1 ∧
    placeholderMetric.status = none ∧
    (∀ ec sa, research_with_existing_code ec sa none =
      { metrics := [extensionPlaceholderMetric], existing_code := ec,
        structure_analysis := sa }) ∧
    extensionPlaceholderMetric.status = some "new" ∧
    (∀ target resp, parse_coding_response target resp = [] →
      create_new_exporter target resp =
        ({ files := [("exporter.go", resp)] }, 1)) := by
  refine ⟨rfl, rfl, rfl, fun ec sa => rfl, rfl, fun target resp h => ?_⟩
  rw [create_new_exporter, h]
  rfl

/-- C8 witness: the unparseable concrete response `hello`. -/
theorem claim8_witness :
    create_new_exporter "conn" "hello" =
      ({ files := [("exporter.go", "hello")] }, 1) :=
  claim8_parse_failure_fallbacks.2.2.2.2.2 "conn" "hello" (by rfl)

/-! ## Claim C5 -/

/-- The `.ok` outcome of the 3-attempt research loop: at most 3 LLM
attempts, a sleep before every retry, and validated metrics. -/
theorem research_attempts_ok (agentCall : Nat → ResearchResult)
    (r : ResearchResult) (n s : Nat)
    (h : research_attempts agentCall 0 0 3 = .ok (r, n, s)) :
    n ≤ 3 ∧ s + 1 = n ∧ validate_metrics r.metrics = .ok () ∧
    r = agentCall (n - 1) := by
  rw [research_attempts] at h
  rcases h0 : validate_metrics (agentCall 0).metrics with e0 | u0
  · rw [h0] at h
    simp only [if_neg (by omega : ¬ (2 : Nat) = 0)] at h
    rw [research_attempts] at h
    rcases h1 : validate_metrics (agentCall 1).metrics with e1 | u1
    · rw [h1] at h
      simp only [if_neg (by omega : ¬ (1 : Nat) = 0)] at h
      rw [research_attempts] at h
      rcases h2 : validate_metrics (agentCall 2).metrics with e2 | u2
      · rw [h2] at h
        simp at h
      · rw [h2] at h
        obtain ⟨rfl, rfl, rfl⟩ := by
          simpa using h
        exact ⟨by omega, by omega, by obtain ⟨⟩ := u2; exact h2, rfl⟩
    · rw [h1] at h
      obtain ⟨rfl, rfl, rfl⟩ := by simpa using h
      exact ⟨by omega, by omega, by obtain ⟨⟩ := u1; exact h1, rfl⟩
  · rw [h0] at h
    obtain ⟨rfl, rfl, rfl⟩ := by simpa using h
    exact ⟨by omega, by omega, by obtain ⟨⟩ := u0; exact h0, rfl⟩

/-- The `.error` outcome of the 3-attempt research loop: all three attempts
failed validation and the raised error is the third attempt's validation
error, unmodified. -/
theorem research_attempts_error (agentCall : Nat → ResearchResult)
    (e : PyError) (h : research_attempts agentCall 0 0 3 = .error e) :
    validate_metrics (agentCall 2).metrics = .error e ∧
    (∃ e0, validate_metrics (agentCall 0).metrics = .error e0) ∧
    (∃ e1, validate_metrics (agentCall 1).metrics = .error e1) := by
  rw [research_attempts] at h
  rcases h0 : validate_metrics (agentCall 0).metrics with e0 | u0
  · rw [h0] at h
    simp only [if_neg (by omega : ¬ (2 : Nat) = 0)] at h
    rw [research_attempts] at h
    rcases h1 : validate_metrics (agentCall 1).metrics with e1 | u1
    · rw [h1] at h
      simp only [if_neg (by omega : ¬ (1 : Nat) = 0)] at h
      rw [research_attempts] at h
      rcases h2 : validate_metrics (agentCall 2).metrics with e2 | u2
      · rw [h2] at h
        simp only [if_pos rfl] at h
        obtain rfl := (Except.error.inj h)
        exact ⟨rfl, ⟨e0, rfl⟩, ⟨e1, rfl⟩⟩
      · rw [h2] at h
        simp at h
    · rw [h1] at h
      simp at h
  · rw [h0] at h
    simp at h

/-- C5: in both fresh and extension mode the research phase makes at most 3
LLM attempts, sleeps once (≈1 time unit) before every retry, returns only
metric lists that pass validation, and when all three attempts fail
validation it propagates the third attempt's validation error unmodified. -/
theorem claim5_research_retry (oracle : ResearchOracle)
    (ec : List (String × String)) (sa : StructureInfo) :
    (∀ r n s, retry_research oracle = .ok (r, n, s) →
      n ≤ 3 ∧ s + 1 = n ∧ validate_metrics r.metrics = .ok ()) ∧
    (∀ e, retry_research oracle = .error e →
      validate_metrics (research_system (oracle 2)).metrics = .error e ∧
      (∃ e0, validate_metrics (research_system (oracle 0)).metrics
        = .error e0) ∧
      (∃ e1, validate_metrics (research_system (oracle 1)).metrics
        = .error e1)) ∧
    (∀ r n s, retry_research_existing ec sa oracle = .ok (r, n, s) →
      n ≤ 3 ∧ s + 1 = n ∧ validate_metrics r.metrics = .ok ()) ∧
    (∀ e, retry_research_existing ec sa oracle = .error e →
      validate_metrics
          (research_with_existing_code ec sa (oracle 2)).metrics
        = .error e) := by
  refine ⟨fun r n s h => ?_, fun e h => ?_, fun r n s h => ?_, fun e h => ?_⟩
  · obtain ⟨hn, hs, hv, _⟩ := research_attempts_ok _ r n s h
    exact ⟨hn, hs, hv⟩
  · exact research_attempts_error _ e h
  · obtain ⟨hn, hs, hv, _⟩ := research_attempts_ok _ r n s h
    exact ⟨hn, hs, hv⟩
  · exact (research_attempts_error _ e h).1

/-- C5 witness: with an oracle whose responses always fail to parse as JSON,
fresh-mode research falls back to the (valid) placeholder metric and
succeeds on attempt 1 with no sleeps. -/
theorem claim5_witness :
    1 ≤ 3 ∧ 0 + 1 = 1 ∧
      validate_metrics (research_system none).metrics = .ok () :=
  (claim5_research_retry (fun _ => none) [] {}).1
    (research_system none) 1 0 (by rfl)

/-! ## Claim C6 -/

theorem lookup_mergeFiles_of_not_modified (m : List (String × String))
    (k : String) :
    ∀ e, m.lookup k = none → (mergeFiles e m).lookup k = e.lookup k := by
  induction m with
  | nil => intro e _; rfl
  | cons kv rest ih =>
    intro e h
    obtain ⟨k0, v0⟩ := kv
    rw [lookup_cons_pair] at h
    by_cases hk : k = k0
    · rw [if_pos hk] at h
      exact absurd h (by simp)
    · rw [if_neg hk] at h
      have step : mergeFiles e ((k0, v0) :: rest)
          = mergeFiles (dictSet e k0 v0) rest := rfl
      rw [step, ih _ h, lookup_dictSet, if_neg hk]

/-- C6: with non-empty `existing_code`, extension-mode code generation
returns the existing code unchanged and makes no LLM call when no metric has
status `new`; otherwise it makes one LLM call and overlays the files parsed
from the response onto a copy of the existing code, so any path not in the
parsed mapping keeps its original content. -/
theorem claim6_extension_codegen (target resp : String)
    (r : ResearchResult) (hne : ¬ r.existing_code.isEmpty) :
    ((∀ m ∈ r.metrics, ¬ m.status = some "new") →
      generate_exporter target r resp = ({ files := r.existing_code }, 0)) ∧
    ((∃ m ∈ r.metrics, m.status = some "new") →
      (generate_exporter target r resp).2 = 1 ∧
      (generate_exporter target r resp).1.files =
        mergeFiles r.existing_code (parse_coding_response target resp) ∧
      (∀ p, (parse_coding_response target resp).lookup p = none →
        ((generate_exporter target r resp).1.files.lookup p
          = r.existing_code.lookup p))) := by
  rw [generate_exporter, if_neg hne]
  constructor
  · intro hnone
    have hfilter : r.metrics.filter (fun m => m.status = some "new") = [] := by
      rw [List.filter_eq_nil_iff]
      intro m hm
      simpa using hnone m hm
    rw [extend_exporter, hfilter]
    rfl
  · intro ⟨m, hm, hnew⟩
    have hfilter : ¬ (r.metrics.filter
        (fun m => m.status = some "new")).isEmpty := by
      rw [List.isEmpty_iff, List.filter_eq_nil_iff]
      intro hall
      exact absurd (by simpa using hnew) (by simpa using hall m hm)
    rw [extend_exporter, if_neg hfilter]
    exact ⟨rfl, rfl, fun p hp => lookup_mergeFiles_of_not_modified _ p _ hp⟩

/-- A one-new-metric extension-mode research result over two existing
files, used to exercise `claim6_extension_codegen`. -/
def newStatusMetric : Metric where
  name := some "m"
  description := some "d"
  mtype := some "gauge"
  status := some "new"

def sampleExtensionResearch : ResearchResult where
  metrics := [newStatusMetric]
  existing_code := [("main.go", "old main"), ("collectors/x.go", "old x")]

/-- A response carrying one annotated fenced block for `collectors/x.go`. -/
def sampleExtensionResp : String :=
  "```go filepath=collectors/x.go\nnew x```"

/-- C6 witness: a concrete extension run with one `new` metric whose
response modifies `collectors/x.go`, leaving `main.go` untouched. -/
theorem claim6_witness :
    (generate_exporter "conn" sampleExtensionResearch sampleExtensionResp).2
        = 1 ∧
    (generate_exporter "conn" sampleExtensionResearch
        sampleExtensionResp).1.files =
      mergeFiles sampleExtensionResearch.existing_code
        (parse_coding_response "conn" sampleExtensionResp) ∧
    (∀ p, (parse_coding_response "conn" sampleExtensionResp).lookup p
        = none →
      ((generate_exporter "conn" sampleExtensionResearch
          sampleExtensionResp).1.files.lookup p
        = sampleExtensionResearch.existing_code.lookup p)) :=
  (claim6_extension_codegen "conn" sampleExtensionResp
      sampleExtensionResearch (by decide)).2
    ⟨newStatusMetric, by simp [sampleExtensionResearch], rfl⟩

/-! ## Claim C1 -/

/-- The fix loop's retry counter never exceeds `max_retries`. -/
theorem fixLoop_count_le (env : FixEnv) (max_retries : Nat) :
    ∀ n retries v, max_retries - retries = n → retries ≤ max_retries →
      (fixLoop env max_retries retries v).1 ≤ max_retries := by
  intro n
  induction n with
  | zero =>
    intro retries v hn h
    rw [fixLoop]
    have hlt : ¬ retries < max_retries := by omega
    rw [dif_neg (by tauto)]
    exact h
  | succ n ih =>
    intro retries v hn h
    rw [fixLoop]
    by_cases hv : ¬ v.validation_errors.isEmpty ∧ retries < max_retries
    · rw [dif_pos hv]
      exact ih (retries + 1) _ (by omega) (by omega)
    · rw [dif_neg hv]
      exact h

/-- When every re-validation keeps producing at least one error, the loop
runs to exactly `max_retries` and ends with a still-erroneous artifact. -/
theorem fixLoop_all_fail (env : FixEnv) (max_retries : Nat)
    (hall : ∀ k a, ¬ (env.revalidate k a).validation_errors.isEmpty) :
    ∀ n retries v, max_retries - retries = n → retries ≤ max_retries →
      ¬ v.validation_errors.isEmpty →
      (fixLoop env max_retries retries v).1 = max_retries ∧
      ¬ (fixLoop env max_retries retries v).2.validation_errors.isEmpty := by
  intro n
  induction n with
  | zero =>
    intro retries v hn h hv
    rw [fixLoop]
    have hlt : ¬ retries < max_retries := by omega
    rw [dif_neg (by tauto)]
    exact ⟨by omega, hv⟩
  | succ n ih =>
    intro retries v hn h hv
    rw [fixLoop]
    have hlt : retries < max_retries := by omega
    rw [dif_pos ⟨hv, hlt⟩]
    exact ih (retries + 1) _ (by omega) (by omega) (hall _ _)

/-- C1: starting from a validated artifact with a non-empty error list, the
fix loop performs at most `max_retries` fix-and-revalidate iterations (its
retry counter never exceeds `max_retries`, so it never loops indefinitely);
when every re-validation still yields at least one error it stops after
exactly `max_retries` iterations and the phase raises the fatal
`ValidationError`. -/
theorem claim1_fix_loop (env : FixEnv) (max_retries : Nat)
    (v : ValidatedCodeArtifact)
    (hv : ¬ v.validation_errors.isEmpty)
    (hall : ∀ k a, ¬ (env.revalidate k a).validation_errors.isEmpty) :
    (∀ v0 : ValidatedCodeArtifact,
      (fixLoop env max_retries 0 v0).1 ≤ max_retries) ∧
    (fixLoop env max_retries 0 v).1 = max_retries ∧
    fixPhase env max_retries v =
      .error (.validationError
        ("Failed to generate valid code after " ++ toString max_retries ++
          " attempts")) := by
  obtain ⟨hc, he⟩ :=
    fixLoop_all_fail env max_retries hall _ 0 v rfl (Nat.zero_le _) hv
  refine ⟨fun v0 => fixLoop_count_le env max_retries _ 0 v0 rfl
    (Nat.zero_le _), hc, ?_⟩
  rw [fixPhase, if_neg he]

/-- A fix-loop environment whose re-validations always report one error. -/
def alwaysFailFixEnv : FixEnv where
  llmFix := fun _ _ => "fixed"
  revalidate := fun _ a =>
    { files := a.files, validation_errors := ["still bad"] }

/-- An initial validated artifact carrying one validation error. -/
def badValidatedArtifact : ValidatedCodeArtifact where
  files := [("exporter.go", "bad")]
  validation_errors := ["bad"]

/-- C1 witness: a two-retry loop whose re-validations always report an
error terminates after exactly 2 iterations and raises. -/
theorem claim1_witness :
    (fixLoop alwaysFailFixEnv 2 0 badValidatedArtifact).1 = 2 ∧
    fixPhase alwaysFailFixEnv 2 badValidatedArtifact =
      .error (.validationError
        "Failed to generate valid code after 2 attempts") :=
  ⟨(claim1_fix_loop alwaysFailFixEnv 2 badValidatedArtifact (by decide)
      (fun k a => by simp [alwaysFailFixEnv])).2.1,
   (claim1_fix_loop alwaysFailFixEnv 2 badValidatedArtifact (by decide)
      (fun k a => by simp [alwaysFailFixEnv])).2.2⟩

/-! ## Claim C4 -/

/-- A setup world in which every external command completes with exit code
0 and the fan-out infrastructure never throws. -/
def setupAllOk : SetupWorld where
  modInit := .ok { returncode := 0, stdout := "", stderr := "" }
  depFetch := fun _ => .ok { returncode := 0, stdout := "", stderr := "" }
  tidy := .ok { returncode := 0, stdout := "", stderr := "" }

/-- C4 (code bug): the claim that `_setup_go_environment` completes normally
when no infrastructure exception occurs is falsified by the code: if the
`try` block raises, the phase raises `CodeGenerationError` as claimed, but
when every command completes — regardless of exit codes — control reaches
the stray trailing `return` statement whose dictionary references the
undefined name `research`, so CPython raises an uncaught `NameError`: the
function never returns normally, for any environment. -/
theorem claim4_setup_never_succeeds :
    (∀ w : SetupWorld, ∃ e, setup_go_environment w = .error e) ∧
    (∀ w : SetupWorld, setup_go_environment w ≠ .ok ()) ∧
    setup_go_environment setupAllOk =
      .error (.nameError "name research is not defined") ∧
    (∀ w : SetupWorld, ∀ exc, w.modInit = .error exc →
      setup_go_environment w =
        .error (.codeGenerationError
          ("Failed to set up Go environment: " ++ exc))) := by
  have hnever : ∀ w : SetupWorld, ∃ e, setup_go_environment w = .error e := by
    intro w
    rw [setup_go_environment]
    rcases h : (do
        let _ ← w.modInit
        let _ ← go_deps.mapM w.depFetch
        let _ ← w.tidy
        pure () : Except String Unit) with exc | u
    · exact ⟨_, rfl⟩
    · exact ⟨_, rfl⟩
  refine ⟨hnever, ?_, rfl, ?_⟩
  · intro w h
    obtain ⟨e, he⟩ := hnever w
    rw [h] at he
    exact Except.noConfusion he
  · intro w exc h
    rw [setup_go_environment]
    simp only [h]
    rfl

/-- C4 witness: the all-commands-succeed world applied through the theorem's
last conjunct for a world whose module-init launch throws. -/
theorem claim4_witness :
    setup_go_environment
      { setupAllOk with modInit := .error "spawn failure" } =
      .error (.codeGenerationError
        "Failed to set up Go environment: spawn failure") :=
  claim4_setup_never_succeeds.2.2.2
    { setupAllOk with modInit := .error "spawn failure" } "spawn failure" rfl

/-! ## Claim C3 -/

/-- A parsed research document with one valid metric. -/
def sampleResearchDoc : ParsedDoc where
  fields := [("metrics", [placeholderMetric])]

/-- A run world in which every environment-setup command succeeds and the
external `go test` command exits non-zero: the scenario of the Test Phase
claim. -/
def worldTestFail : RunWorld where
  target := "conn"
  max_retries := 5
  extendInput := none
  researchOracle := fun _ => some sampleResearchDoc
  codingResp := "```go filepath=exporter.go\npackage main```"
  setup := setupAllOk
  valWorld := { toolRun := fun _ _ => (true, ""), mutated := fun _ c => c }
  fs0 := []
  fixEnv := ⟨fun _ _ => "", fun _ a => ⟨a.files, [], none⟩⟩
  testsResp := ""
  testOutcome := .ok { returncode := 1, stdout := "--- FAIL: TestMetrics", stderr := "" }
  dashboardResp := "dashboard"
  alertResp := "alerts"

/-- C3 (code bug): the Test Phase itself never raises — a non-zero exit
yields `TestResult(passed=false)` with the combined stdout/stderr, a
process-level exception yields `passed=false` with the exception text, and
the diagnostic LLM call is fire-and-forget — but the claimed complete result
bundle is never produced: `run_agents` always dies earlier with the
`NameError` raised by `_setup_go_environment`'s stray `return`, even in a
run whose setup commands all succeed and whose only failure is the test
command's exit code. -/
theorem claim3_test_failure_no_bundle :
    run_tests (.ok ⟨1, "--- FAIL: TestMetrics", "2 tests failed"⟩) =
      { passed := false, output := "--- FAIL: TestMetrics2 tests failed" } ∧
    run_tests (.error "go test could not be launched") =
      { passed := false, output := "go test could not be launched" } ∧
    run_agents worldTestFail =
      .error (.nameError "name research is not defined") := by
  refine ⟨rfl, rfl, ?_⟩
  rfl

/-! ## Claim C9: dictionary and fold lemmas -/

theorem lookup_none_iff_not_mem_keys (d : List (String × String))
    (k : String) : d.lookup k = none ↔ k ∉ d.map Prod.fst := by
  induction d with
  | nil => simp
  | cons kv rest ih =>
    obtain ⟨k0, v0⟩ := kv
    rw [lookup_cons_pair]
    by_cases h : k = k0
    · subst h
      simp
    · rw [if_neg h]
      simp [h, ih]

theorem keys_dictSet (d : List (String × String)) (k v : String) :
    (dictSet d k v).map Prod.fst =
      if (d.lookup k).isSome then d.map Prod.fst
      else d.map Prod.fst ++ [k] := by
  induction d with
  | nil => simp [dictSet]
  | cons kv rest ih =>
    obtain ⟨k0, v0⟩ := kv
    rw [lookup_cons_pair]
    by_cases h : k = k0
    · subst h
      simp [dictSet]
    · rw [dictSet, if_neg (fun hk => h hk.symm), if_neg h]
      by_cases hs : (rest.lookup k).isSome
      · simp only [List.map_cons, ih, if_pos hs, hs, if_pos]
      · simp only [List.map_cons, ih, if_neg hs, hs, if_neg]
        simp

theorem keys_nodup_dictSet (d : List (String × String)) (k v : String)
    (h : (d.map Prod.fst).Nodup) :
    ((dictSet d k v).map Prod.fst).Nodup := by
  rw [keys_dictSet]
  by_cases hs : (d.lookup k).isSome
  · rwa [if_pos hs]
  · rw [if_neg hs]
    have hk : k ∉ d.map Prod.fst := by
      rw [← lookup_none_iff_not_mem_keys]
      rwa [Option.isSome_iff_ne_none, not_not] at hs
    rw [List.nodup_append]
    refine ⟨h, List.nodup_singleton k, ?_⟩
    simp only [List.disjoint_singleton]
    exact hk

theorem lookup_isSome_dictSet_mono (d : List (String × String))
    (k k' v : String) (h : (d.lookup k).isSome) :
    ((dictSet d k' v).lookup k).isSome := by
  rw [lookup_dictSet]
  by_cases hk : k = k'
  · simp [hk]
  · rwa [if_neg hk]

theorem lookup_dictRemove_none_mono (d : List (String × String))
    (k k' : String) (h : d.lookup k = none) :
    (dictRemove d k').lookup k = none := by
  induction d with
  | nil => simp [dictRemove]
  | cons kv rest ih =>
    obtain ⟨k0, v0⟩ := kv
    rw [lookup_cons_pair] at h
    by_cases hk : k = k0
    · rw [if_pos hk] at h
      exact absurd h (by simp)
    · rw [if_neg hk] at h
      rw [dictRemove]
      by_cases h0 : k0 = k'
      · rw [if_pos h0]
        exact h
      · rw [if_neg h0, lookup_cons_pair, if_neg hk]
        exact ih h

theorem lookup_dictRemove_self (d : List (String × String)) (k : String)
    (hnd : (d.map Prod.fst).Nodup) : (dictRemove d k).lookup k = none := by
  induction d with
  | nil => simp [dictRemove]
  | cons kv rest ih =>
    obtain ⟨k0, v0⟩ := kv
    simp only [List.map_cons, List.nodup_cons] at hnd
    rw [dictRemove]
    by_cases h0 : k0 = k
    · rw [if_pos h0]
      rw [lookup_none_iff_not_mem_keys]
      subst h0
      exact hnd.1
    · rw [if_neg h0, lookup_cons_pair,
        if_neg (fun hk => h0 hk.symm)]
      exact ih hnd.2

theorem keys_dictRemove_sublist (d : List (String × String)) (k : String) :
    ((dictRemove d k).map Prod.fst).Sublist (d.map Prod.fst) := by
  induction d with
  | nil => simp [dictRemove]
  | cons kv rest ih =>
    obtain ⟨k0, v0⟩ := kv
    rw [dictRemove]
    by_cases h0 : k0 = k
    · rw [if_pos h0]
      simp only [List.map_cons]
      exact (List.sublist_cons_self _ _)
    · rw [if_neg h0]
      simp only [List.map_cons]
      exact ih.cons₂ _

theorem keys_nodup_dictRemove (d : List (String × String)) (k : String)
    (h : (d.map Prod.fst).Nodup) :
    ((dictRemove d k).map Prod.fst).Nodup :=
  h.sublist (keys_dictRemove_sublist d k)

theorem foldl_dictRemove_none_mono (l : List String)
    (fs : List (String × String)) (k : String) (h : fs.lookup k = none) :
    (l.foldl dictRemove fs).lookup k = none := by
  induction l generalizing fs with
  | nil => exact h
  | cons t rest ih =>
    exact ih _ (lookup_dictRemove_none_mono fs k t h)

theorem foldl_dictRemove_nodup (l : List String)
    (fs : List (String × String)) (h : (fs.map Prod.fst).Nodup) :
    ((l.foldl dictRemove fs).map Prod.fst).Nodup := by
  induction l generalizing fs with
  | nil => exact h
  | cons t rest ih =>
    exact ih _ (keys_nodup_dictRemove fs t h)

theorem foldl_dictRemove_lookup (l : List String) (k : String) :
    ∀ fs : List (String × String), (fs.map Prod.fst).Nodup → k ∈ l →
      (l.foldl dictRemove fs).lookup k = none := by
  induction l with
  | nil =>
    intro fs _ hk
    cases hk
  | cons t rest ih =>
    intro fs hnd hk
    rcases List.mem_cons.mp hk with rfl | hk'
    · exact foldl_dictRemove_none_mono rest _ k
        (lookup_dictRemove_self fs k hnd)
    · exact ih _ (keys_nodup_dictRemove fs t hnd) hk'

theorem validateFileStep_fs (w : ValWorld)
    (acc : List String × Option String × List (String × String))
    (f : String × String) :
    (validateFileStep w acc f).2.2 =
      dictSet (dictSet acc.2.2 f.1 f.2) f.1 (w.mutated f.1 f.2) := rfl

theorem validateFileStep_formatted (w : ValWorld)
    (acc : List String × Option String × List (String × String))
    (f : String × String) :
    (validateFileStep w acc f).2.1 = some (w.mutated f.1 f.2) := by
  show (dictSet (dictSet acc.2.2 f.1 f.2) f.1 (w.mutated f.1 f.2)).lookup f.1
    = some (w.mutated f.1 f.2)
  rw [lookup_dictSet, if_pos rfl]

theorem foldl_validateFileStep_keys_nodup (w : ValWorld)
    (files : List (String × String)) :
    ∀ acc : List String × Option String × List (String × String),
      (acc.2.2.map Prod.fst).Nodup →
      ((files.foldl (validateFileStep w) acc).2.2.map Prod.fst).Nodup := by
  induction files with
  | nil => exact fun acc h => h
  | cons f rest ih =>
    intro acc h
    rw [List.foldl_cons]
    exact ih _ (by
      rw [validateFileStep_fs]
      exact keys_nodup_dictSet _ _ _ (keys_nodup_dictSet _ _ _ h))

theorem foldl_validateFileStep_lookup_isSome (w : ValWorld)
    (files : List (String × String)) (fn : String) :
    ∀ acc : List String × Option String × List (String × String),
      fn ∈ files.map Prod.fst ∨ (acc.2.2.lookup fn).isSome →
      (((files.foldl (validateFileStep w) acc).2.2.lookup fn)).isSome := by
  induction files with
  | nil =>
    intro acc h
    rcases h with h | h
    · cases h
    · exact h
  | cons f rest ih =>
    intro acc h
    rw [List.foldl_cons]
    by_cases hf : fn = f.1
    · refine ih _ (Or.inr ?_)
      rw [validateFileStep_fs, lookup_dictSet, if_pos hf]
      rfl
    · rcases h with h | h
      · rw [List.map_cons] at h
        rcases List.mem_cons.mp h with h' | h'
        · exact absurd h' hf
        · exact ih _ (Or.inl h')
      · refine ih _ (Or.inr ?_)
        rw [validateFileStep_fs, lookup_dictSet, if_neg hf,
          lookup_dictSet, if_neg hf]
        exact h

theorem foldl_validateFileStep_formatted_last (w : ValWorld)
    (init : List (String × String)) (fn c : String)
    (acc : List String × Option String × List (String × String)) :
    ((init ++ [(fn, c)]).foldl (validateFileStep w) acc).2.1 =
      some (w.mutated fn c) := by
  rw [List.foldl_append, List.foldl_cons, List.foldl_nil]
  exact validateFileStep_formatted w _ (fn, c)

theorem validate_code_files (w : ValWorld) (fs0 : List (String × String))
    (a : CodeArtifact) : (validate_code w fs0 a).1.files = a.files := rfl

theorem validate_code_errors (w : ValWorld) (fs0 : List (String × String))
    (a : CodeArtifact) :
    (validate_code w fs0 a).1.validation_errors =
      (a.files.foldl (validateFileStep w) ([], none, fs0)).1 := rfl

theorem validate_code_formatted (w : ValWorld)
    (fs0 : List (String × String)) (a : CodeArtifact) :
    (validate_code w fs0 a).1.formatted_code =
      (a.files.foldl (validateFileStep w) ([], none, fs0)).2.1 := rfl

theorem validate_code_fs (w : ValWorld) (fs0 : List (String × String))
    (a : CodeArtifact) :
    (validate_code w fs0 a).2 =
      if (a.files.foldl (validateFileStep w) ([], none, fs0)).1.isEmpty
      then (a.files.foldl (validateFileStep w) ([], none, fs0)).2.2
      else (a.files.map Prod.fst).foldl dictRemove
        (a.files.foldl (validateFileStep w) ([], none, fs0)).2.2 := rfl

/-- C9: `validate_code` keeps the artifact's files, re-reads the (possibly
tool-mutated) content of each file after its tool sequence so that
`formatted_code` ends as the last file's re-read content, and on completion
deletes every temporary file written during the call iff at least one
validation error was recorded — on success the filesystem is exactly the
post-write state, with every written file still present. -/
theorem claim9_validation_file_effects (w : ValWorld)
    (fs0 : List (String × String)) (a : CodeArtifact)
    (hnd : (fs0.map Prod.fst).Nodup) :
    (validate_code w fs0 a).1.files = a.files ∧
    (∀ init fn c, a.files = init ++ [(fn, c)] →
      (validate_code w fs0 a).1.formatted_code = some (w.mutated fn c)) ∧
    (¬ (validate_code w fs0 a).1.validation_errors.isEmpty →
      ∀ fn ∈ a.files.map Prod.fst,
        (validate_code w fs0 a).2.lookup fn = none) ∧
    ((validate_code w fs0 a).1.validation_errors.isEmpty →
      (validate_code w fs0 a).2 =
        (a.files.foldl (validateFileStep w) ([], none, fs0)).2.2 ∧
      ∀ fn ∈ a.files.map Prod.fst,
        ((validate_code w fs0 a).2.lookup fn).isSome) := by
  refine ⟨rfl, ?_, ?_, ?_⟩
  · intro init fn c hfiles
    rw [validate_code_formatted, hfiles]
    exact foldl_validateFileStep_formatted_last w init fn c _
  · intro herr fn hfn
    rw [validate_code_errors] at herr
    have hstep :
        (((a.files.foldl (validateFileStep w) ([], none, fs0)).2.2).map
          Prod.fst).Nodup :=
      foldl_validateFileStep_keys_nodup w a.files _ hnd
    rw [validate_code_fs, if_neg herr]
    exact foldl_dictRemove_lookup _ fn _ hstep hfn
  · intro hok
    rw [validate_code_errors] at hok
    rw [validate_code_fs, if_pos hok]
    exact ⟨rfl, fun fn hfn =>
      foldl_validateFileStep_lookup_isSome w a.files fn _ (Or.inl hfn)⟩

/-- A tool world whose linter always emits output (so every file records a
lint warning string) and whose tools append a newline to each file. -/
def sampleValWorld : ValWorld where
  toolRun := fun tool _ => if tool = "lint" then (true, "lint note") else (true, "")
  mutated := fun _ c => c ++ "\n"

/-- A two-file artifact for exercising `claim9_validation_file_effects`. -/
def sampleArtifact : CodeArtifact where
  files := [("a.go", "A"), ("b.go", "B")]

/-- C9 witness: on the concrete two-file artifact with lint output, the
formatted slot holds the mutated content of the last file `b.go` and the
recorded lint warnings trigger deletion of both temporary files. -/
theorem claim9_witness :
    (validate_code sampleValWorld [] sampleArtifact).1.formatted_code =
      some "B\n" ∧
    (validate_code sampleValWorld [] sampleArtifact).2.lookup "a.go" = none ∧
    (validate_code sampleValWorld [] sampleArtifact).2.lookup "b.go" = none := by
  obtain ⟨_, hfmt, hdel, _⟩ :=
    claim9_validation_file_effects sampleValWorld [] sampleArtifact (by simp)
  refine ⟨?_, ?_, ?_⟩
  · rw [hfmt [("a.go", "A")] "b.go" "B" rfl]
    rfl
  · exact hdel (by decide) "a.go" (by simp [sampleArtifact])
  · exact hdel (by decide) "b.go" (by simp [sampleArtifact])

/-! ## Claim C7: parser lemmas -/

theorem splitAfterLastNewline_append (w p s : List Char)
    (h : splitAfterLastNewline w = some (p, s)) : w = p ++ s := by
  induction w generalizing p s with
  | nil => simp [splitAfterLastNewline] at h
  | cons c cs ih =>
    rw [splitAfterLastNewline] at h
    rcases hcs : splitAfterLastNewline cs with _ | ⟨p', s'⟩
    · rw [hcs] at h
      by_cases hc : c = '\n'
      · rw [if_pos hc] at h
        obtain ⟨rfl, rfl⟩ := by
          simpa using h
        rfl
      · rw [if_neg hc] at h
        cases h
    · rw [hcs] at h
      obtain ⟨rfl, rfl⟩ := by simpa using h
      rw [List.cons_append, ← ih p' s' hcs]

theorem takeUntilFence_len (l t r : List Char)
    (h : takeUntilFence l = some (t, r)) : r.length + 3 ≤ l.length := by
  induction l generalizing t r with
  | nil => simp [takeUntilFence] at h
  | cons c cs ih =>
    rw [takeUntilFence] at h
    by_cases hf : isFenceStart (c :: cs) = true
    · rw [if_pos hf] at h
      obtain ⟨c2, c3, rest, hcs⟩ : ∃ c2 c3 rest, cs = c2 :: c3 :: rest := by
        rcases cs with _ | ⟨c2, cs'⟩
        · simp [isFenceStart] at hf
        · rcases cs' with _ | ⟨c3, rest⟩
          · simp [isFenceStart] at hf
          · exact ⟨c2, c3, rest, rfl⟩
      obtain ⟨rfl, rfl⟩ := by simpa using h
      subst hcs
      simp
    · rw [if_neg hf] at h
      rcases hr : takeUntilFence cs with _ | ⟨t', r'⟩
      · rw [hr] at h
        cases h
      · rw [hr] at h
        obtain ⟨rfl, rfl⟩ := by simpa using h
        have hlen := ih t' r' hr
        simp only [List.length_cons]
        omega

theorem headerFallback_len (w afterW : List Char) (pa : String)
    (p : List Char) (h : headerFallback w afterW = some (pa, p)) :
    p.length ≤ w.length + afterW.length := by
  rw [headerFallback] at h
  rcases hb : splitAfterLastNewline w with _ | ⟨p1, s1⟩ <;> rw [hb] at h
  · cases h
  · have he := congrArg List.length (splitAfterLastNewline_append _ _ _ hb)
    simp only [List.length_append] at he
    obtain ⟨rfl, rfl⟩ := by simpa using h
    simp only [List.length_append]
    omega

theorem matchHeader_len (ds : List Char) (pa : String) (p : List Char)
    (h : matchHeader ds = some (pa, p)) : p.length ≤ ds.length := by
  have l1 : (ds.takeWhile isSpaceChar).length +
      (ds.dropWhile isSpaceChar).length = ds.length := by
    rw [← List.length_append, List.takeWhile_append_dropWhile]
  have hfb : headerFallback (ds.takeWhile isSpaceChar)
        (ds.dropWhile isSpaceChar) = some (pa, p) →
      p.length ≤ ds.length := by
    intro hq
    have := headerFallback_len _ _ _ _ hq
    omega
  simp only [matchHeader] at h
  by_cases hp : ("filepath=".toList).isPrefixOf (ds.dropWhile isSpaceChar)
      = true
  · rw [if_pos hp] at h
    by_cases hpath : ((ds.dropWhile isSpaceChar).drop 9).takeWhile isPathChar
        = []
    · rw [if_pos hpath] at h
      exact hfb h
    · rw [if_neg hpath] at h
      rcases hb2 : splitAfterLastNewline
          ((((ds.dropWhile isSpaceChar).drop 9).dropWhile
            isPathChar).takeWhile isSpaceChar) with _ | ⟨p2, s2⟩ <;>
        rw [hb2] at h
      · exact hfb h
      · have he2 := congrArg List.length
          (splitAfterLastNewline_append _ _ _ hb2)
        simp only [List.length_append] at he2
        have hap : ((((ds.dropWhile isSpaceChar).drop 9).dropWhile
              isPathChar).takeWhile isSpaceChar).length +
            ((((ds.dropWhile isSpaceChar).drop 9).dropWhile
              isPathChar).dropWhile isSpaceChar).length =
            (((ds.dropWhile isSpaceChar).drop 9).dropWhile
              isPathChar).length := by
          rw [← List.length_append, List.takeWhile_append_dropWhile]
        have h9 : (((ds.dropWhile isSpaceChar).drop 9).dropWhile
            isPathChar).length ≤ ds.length := by
          calc (((ds.dropWhile isSpaceChar).drop 9).dropWhile
                isPathChar).length
              ≤ ((ds.dropWhile isSpaceChar).drop 9).length :=
                List.Sublist.length_le (List.dropWhile_sublist _)
            _ ≤ (ds.dropWhile isSpaceChar).length := by
                simp
            _ ≤ ds.length := by omega
        obtain ⟨rfl, rfl⟩ := by simpa using h
        simp only [List.length_append]
        omega
  · rw [if_neg hp] at h
    exact hfb h

theorem attemptFence_len (ds : List Char) (pa ct : String) (r : List Char)
    (h : attemptFence ds = some (pa, ct, r)) : r.length ≤ ds.length := by
  rw [attemptFence] at h
  rcases hh : matchHeader ds with _ | ⟨path, afterHeader⟩ <;> rw [hh] at h
  · cases h
  · simp only [Option.some_bind] at h
    rcases ht : takeUntilFence afterHeader with _ | ⟨content, rest⟩ <;>
      rw [ht] at h
    · cases h
    · obtain ⟨rfl, rfl, rfl⟩ := by simpa using h
      have h1 := matchHeader_len ds path afterHeader hh
      have h2 := takeUntilFence_len afterHeader content rest ht
      omega

theorem matchAfterFence_len (cs : List Char) (pa ct : String)
    (r : List Char) (h : matchAfterFence cs = some (pa, ct, r)) :
    r.length ≤ cs.length := by
  rw [matchAfterFence.eq_def] at h
  split at h
  · rename_i ds
    split at h
    · rename_i r0 ha
      obtain rfl := by simpa using h
      have := attemptFence_len ds pa ct r ha
      simp only [List.length_cons]
      omega
    · exact attemptFence_len _ _ _ _ h
  · exact attemptFence_len _ _ _ _ h

theorem scanGo_stable (m : Nat) :
    ∀ n l, l.length ≤ m → l.length ≤ n → scanGo m l = scanGo n l := by
  induction m with
  | zero =>
    intro n l hm _
    have : l = [] := List.eq_nil_of_length_eq_zero (by omega)
    subst this
    cases n <;> rfl
  | succ m ih =>
    intro n l hm hn
    rcases l with _ | ⟨c, rest⟩
    · cases n <;> rfl
    · rcases n with _ | n'
      · simp at hn
      · rw [scanGo, scanGo]
        by_cases hf : isFenceStart (c :: rest) = true
        · rw [if_pos hf, if_pos hf]
          rcases hmf : matchAfterFence (rest.drop 2) with _ | ⟨p, ct, r⟩
          · show scanGo m rest = scanGo n' rest
            exact ih n' rest (by simpa using hm) (by simpa using hn)
          · have hr : r.length ≤ (rest.drop 2).length :=
              matchAfterFence_len _ _ _ _ hmf
            have hr2 : r.length ≤ rest.length := by
              have hd := List.length_drop 2 rest
              omega
            have hl : rest.length + 1 ≤ m + 1 := by simpa using hm
            have hl2 : rest.length + 1 ≤ n' + 1 := by simpa using hn
            show (p, ct) :: scanGo m r = (p, ct) :: scanGo n' r
            exact congrArg _ (ih n' r (by omega) (by omega))
        · rw [if_neg hf, if_neg hf]
          exact ih n' rest (by simpa using hm) (by simpa using hn)

theorem scanBlocks_nil : scanBlocks [] = [] := rfl

theorem scanBlocks_cons_skip (c : Char) (cs : List Char)
    (h : ¬ isFenceStart (c :: cs) = true) :
    scanBlocks (c :: cs) = scanBlocks cs := by
  rw [scanBlocks, scanBlocks, List.length_cons, scanGo, if_neg h]

theorem scanBlocks_fence (X : List Char) (p ct : String) (r : List Char)
    (h : matchAfterFence X = some (p, ct, r)) :
    scanBlocks (btick :: btick :: btick :: X) = (p, ct) :: scanBlocks r := by
  have hr : r.length ≤ X.length := matchAfterFence_len _ _ _ _ h
  have hfence : isFenceStart (btick :: btick :: btick :: X) = true := by
    simp [isFenceStart]
  have hlen : (btick :: btick :: btick :: X).length = (X.length + 2) + 1 := by
    simp
  rw [scanBlocks, hlen, scanGo, if_pos hfence]
  have hdrop : (btick :: btick :: X).drop 2 = X := rfl
  rw [hdrop, h, scanBlocks]
  exact congrArg _ (scanGo_stable (X.length + 2) r.length r (by omega)
    (le_refl _))

theorem takeWhile_all_append (p : Char → Bool) (l : List Char) (y : Char)
    (t : List Char) (hl : ∀ x ∈ l, p x = true) (hy : ¬ p y = true) :
    (l ++ y :: t).takeWhile p = l ∧ (l ++ y :: t).dropWhile p = y :: t := by
  induction l with
  | nil =>
    simp only [List.nil_append]
    exact ⟨List.takeWhile_cons_of_neg hy, List.dropWhile_cons_of_neg hy⟩
  | cons c cs ih =>
    have hc : p c = true := hl c (by simp)
    obtain ⟨h1, h2⟩ := ih (fun x hx => hl x (by simp [hx]))
    rw [List.cons_append]
    constructor
    · rw [List.takeWhile_cons_of_pos hc, h1]
    · rw [List.dropWhile_cons_of_pos hc, h2]

/-- Does the text not start with a whitespace character? -/
def listHeadOk : List Char → Bool
  | [] => true
  | x :: _ => ¬ isSpaceChar x

theorem takeWhile_space_headOk (t : List Char) (h : listHeadOk t = true) :
    t.takeWhile isSpaceChar = [] ∧ t.dropWhile isSpaceChar = t := by
  cases t with
  | nil => exact ⟨rfl, rfl⟩
  | cons x xs =>
    have hx : ¬ isSpaceChar x = true := by simpa [listHeadOk] using h
    exact ⟨List.takeWhile_cons_of_neg hx, List.dropWhile_cons_of_neg hx⟩

theorem isPrefixOf_append_self (l t : List Char) :
    l.isPrefixOf (l ++ t) = true := by
  induction l with
  | nil => simp [List.isPrefixOf]
  | cons c cs ih => simp [List.isPrefixOf, ih]

theorem isFenceStart_cons_false (x : Char) (l : List Char)
    (h : ¬ x = btick) : isFenceStart (x :: l) = false := by
  rcases l with _ | ⟨y, ys⟩
  · rfl
  · rcases ys with _ | ⟨z, zs⟩
    · rfl
    · simp [isFenceStart, h]

theorem takeUntilFence_boundary (t : List Char) (r : List Char)
    (h : ∀ c ∈ t, ¬ c = btick) :
    takeUntilFence (t ++ btick :: btick :: btick :: r) = some (t, r) := by
  induction t with
  | nil =>
    rw [List.nil_append, takeUntilFence,
      if_pos (by simp [isFenceStart] : isFenceStart
        (btick :: btick :: btick :: r) = true)]
    rfl
  | cons c cs ih =>
    have hc : ¬ c = btick := h c (by simp)
    rw [List.cons_append, takeUntilFence,
      if_neg (by simp [isFenceStart_cons_false _ _ hc]),
      ih (fun x hx => h x (by simp [hx]))]

theorem listHeadOk_append (c l : List Char) (hc : listHeadOk c = true)
    (hl : listHeadOk l = true) : listHeadOk (c ++ l) = true := by
  cases c with
  | nil => simpa using hl
  | cons x xs => simpa [listHeadOk] using hc

/-- Computation of `matchHeader` on a `filepath=`-annotated header: the
space after `go`, the annotation, the path, the newline. -/
theorem matchHeader_annotated (a t : List Char) (ha1 : a ≠ [])
    (ha2 : ∀ x ∈ a, isPathChar x = true) (ht : listHeadOk t = true) :
    matchHeader (' ' :: ("filepath=".toList ++ (a ++ '\n' :: t)))
      = some (String.mk a, t) := by
  have heq : (' ' :: ("filepath=".toList ++ (a ++ '\n' :: t)))
      = [' '] ++ ('f' :: ("ilepath=".toList ++ (a ++ '\n' :: t))) := rfl
  obtain ⟨htw, hdw⟩ := takeWhile_all_append isSpaceChar [' '] 'f'
    ("ilepath=".toList ++ (a ++ '\n' :: t)) (by decide) (by decide)
  have hafter : ('f' :: ("ilepath=".toList ++ (a ++ '\n' :: t)))
      = "filepath=".toList ++ (a ++ '\n' :: t) := rfl
  obtain ⟨hta, hda⟩ := takeWhile_all_append isPathChar a '\n' t ha2 (by decide)
  obtain ⟨htt, hdt⟩ := takeWhile_space_headOk t ht
  have hdrop9 : ("filepath=".toList ++ (a ++ '\n' :: t)).drop 9
      = a ++ '\n' :: t := by
    rw [show (9 : Nat) = ("filepath=".toList).length from rfl,
      List.drop_left]
  simp only [matchHeader]
  rw [heq, htw, hdw, hafter,
    if_pos (isPrefixOf_append_self ("filepath=".toList) (a ++ '\n' :: t)),
    hdrop9, hta, if_neg ha1, hda,
    List.takeWhile_cons_of_pos (by decide : isSpaceChar '\n' = true), htt,
    show splitAfterLastNewline ['\n'] = some (['\n'], []) from rfl,
    List.dropWhile_cons_of_pos (by decide : isSpaceChar '\n' = true), hdt]
  rfl

/-- Computation of `matchHeader` on an un-annotated header `\n...`. -/
theorem matchHeader_unannotated (t : List Char) (ht : listHeadOk t = true)
    (hfp : ("filepath=".toList).isPrefixOf t = false) :
    matchHeader ('\n' :: t) = some ("", t) := by
  obtain ⟨htt, hdt⟩ := takeWhile_space_headOk t ht
  simp only [matchHeader]
  rw [List.takeWhile_cons_of_pos (by decide : isSpaceChar '\n' = true), htt,
    List.dropWhile_cons_of_pos (by decide : isSpaceChar '\n' = true), hdt,
    if_neg (by rw [hfp]; exact Bool.false_ne_true), headerFallback,
    show splitAfterLastNewline ['\n'] = some (['\n'], []) from rfl]
  rfl

/-- `matchAfterFence` on a complete annotated block body
`go filepath=<a>\n<c>` + closing fence + rest. -/
theorem matchAfterFence_annotated (a c r : List Char) (ha1 : a ≠ [])
    (ha2 : ∀ x ∈ a, isPathChar x = true)
    (hc : ∀ x ∈ c, ¬ x = btick)
    (hh : listHeadOk (c ++ btick :: btick :: btick :: r) = true) :
    matchAfterFence ('g' :: 'o' :: ' ' :: ("filepath=".toList ++
        (a ++ '\n' :: (c ++ btick :: btick :: btick :: r))))
      = some (String.mk a, String.mk c, r) := by
  have hatt : attemptFence (' ' :: ("filepath=".toList ++
      (a ++ '\n' :: (c ++ btick :: btick :: btick :: r))))
      = some (String.mk a, String.mk c, r) := by
    rw [attemptFence, matchHeader_annotated a _ ha1 ha2 hh,
      Option.some_bind, takeUntilFence_boundary c r hc]
    rfl
  rw [matchAfterFence, hatt]

/-- `matchAfterFence` on an un-annotated block body `go\n<c>` + closing
fence + rest. -/
theorem matchAfterFence_unannotated (c r : List Char)
    (hc : ∀ x ∈ c, ¬ x = btick)
    (hh : listHeadOk (c ++ btick :: btick :: btick :: r) = true)
    (hfp : ("filepath=".toList).isPrefixOf
      (c ++ btick :: btick :: btick :: r) = false) :
    matchAfterFence ('g' :: 'o' :: '\n' ::
        (c ++ btick :: btick :: btick :: r))
      = some ("", String.mk c, r) := by
  have hatt : attemptFence ('\n' :: (c ++ btick :: btick :: btick :: r))
      = some ("", String.mk c, r) := by
    rw [attemptFence, matchHeader_unannotated _ hh hfp,
      Option.some_bind, takeUntilFence_boundary c r hc]
    rfl
  rw [matchAfterFence, hatt]

/-- A `go`-tagged fenced block annotated with path `a` and content `c`,
followed by `rest`: the text `` ```go filepath=<a>\n<c>``` `` + rest. -/
def fencedBlock (a c rest : List Char) : List Char :=
  btick :: btick :: btick :: 'g' :: 'o' :: ' ' ::
    ("filepath=".toList ++
      (a ++ '\n' :: (c ++ btick :: btick :: btick :: rest)))

/-- An un-annotated `go`-tagged fenced block: `` ```go\n<c>``` `` + rest. -/
def fencedBlockNoPath (c rest : List Char) : List Char :=
  btick :: btick :: btick :: 'g' :: 'o' :: '\n' ::
    (c ++ btick :: btick :: btick :: rest)

theorem listHeadOk_btick (l : List Char) : listHeadOk (btick :: l) = true := by
  show (¬ isSpaceChar btick : Bool) = true
  decide

theorem scanBlocks_fencedBlock (a c rest : List Char) (ha1 : a ≠ [])
    (ha2 : ∀ x ∈ a, isPathChar x = true) (hc : ∀ x ∈ c, ¬ x = btick)
    (hch : listHeadOk c = true) :
    scanBlocks (fencedBlock a c rest)
      = (String.mk a, String.mk c) :: scanBlocks rest := by
  have hh : listHeadOk (c ++ btick :: btick :: btick :: rest) = true :=
    listHeadOk_append c _ hch (listHeadOk_btick _)
  exact scanBlocks_fence _ _ _ _
    (matchAfterFence_annotated a c rest ha1 ha2 hc hh)

theorem scanBlocks_fencedBlockNoPath (c rest : List Char)
    (hc : ∀ x ∈ c, ¬ x = btick) (hch : listHeadOk c = true)
    (hfp : ("filepath=".toList).isPrefixOf
      (c ++ btick :: btick :: btick :: rest) = false) :
    scanBlocks (fencedBlockNoPath c rest)
      = ("", String.mk c) :: scanBlocks rest := by
  have hh : listHeadOk (c ++ btick :: btick :: btick :: rest) = true :=
    listHeadOk_append c _ hch (listHeadOk_btick _)
  exact scanBlocks_fence _ _ _ _
    (matchAfterFence_unannotated c rest hc hh hfp)

theorem mk_ne_empty (a : List Char) (h : a ≠ []) : String.mk a ≠ "" := by
  intro he
  exact h (congrArg String.data he)

theorem dictSet_singleton_ne (p1 v1 p2 v2 : String) (h : ¬ p1 = p2) :
    dictSet [(p1, v1)] p2 v2 = [(p1, v1), (p2, v2)] := by
  rw [dictSet, if_neg h]
  rfl

theorem filesFromBlocks_two (t p1 c1 p2 c2 : String)
    (h1 : ¬ p1 = "") (h2 : ¬ p2 = "") (h12 : ¬ p1 = p2) :
    filesFromBlocks t [(p1, c1), (p2, c2)]
      = [(p1, pyStrip c1), (p2, pyStrip c2)] := by
  simp only [filesFromBlocks, List.foldl_cons, List.foldl_nil]
  rw [if_neg h1, if_neg h2]
  exact dictSet_singleton_ne _ _ _ _ h12

theorem filesFromBlocks_single_nopath (t c : String) :
    filesFromBlocks t [("", c)] = [(guessPath t c, pyStrip c)] := by
  simp only [filesFromBlocks, List.foldl_cons, List.foldl_nil]
  rw [if_pos trivial]
  rfl

/-- C7: multi-file response parsing, which is a total function (it never
raises).  (1) A response made of two fenced blocks annotated with explicit
paths `a` and `b` parses to exactly those two keys bound to the trimmed
block contents.  (2) A fenced block with no path annotation is routed by
content markers: `func main(` to `cmd/<target>/main.go`, otherwise
`TestMetrics` to `exporter_test.go`, otherwise to the default
`exporter.go`.  (3) When no fenced block matches, the secondary
path-comment heuristic is tried.  (4) When neither pattern matches
anything, the result is the empty mapping (which triggers the caller's
single-file fallback, cf. claim C8). -/
theorem claim7_parse_coding_response :
    (∀ (t : String) (a b c1 c2 : List Char),
      a ≠ [] → (∀ x ∈ a, isPathChar x = true) →
      b ≠ [] → (∀ x ∈ b, isPathChar x = true) →
      String.mk a ≠ String.mk b →
      (∀ x ∈ c1, ¬ x = btick) → listHeadOk c1 = true →
      (∀ x ∈ c2, ¬ x = btick) → listHeadOk c2 = true →
      parse_coding_response t
          (String.mk (fencedBlock a c1 ('\n' :: fencedBlock b c2 [])))
        = [(String.mk a, pyStrip (String.mk c1)),
           (String.mk b, pyStrip (String.mk c2))]) ∧
    (∀ (t : String) (c : List Char),
      (∀ x ∈ c, ¬ x = btick) → listHeadOk c = true →
      ("filepath=".toList).isPrefixOf
        (c ++ btick :: btick :: btick :: []) = false →
      ((containsSub (String.mk c) "func main(" = true →
        parse_coding_response t (String.mk (fencedBlockNoPath c []))
          = [("cmd/" ++ t ++ "/main.go", pyStrip (String.mk c))]) ∧
       (containsSub (String.mk c) "func main(" = false →
        containsSub (String.mk c) "TestMetrics" = true →
        parse_coding_response t (String.mk (fencedBlockNoPath c []))
          = [("exporter_test.go", pyStrip (String.mk c))]) ∧
       (containsSub (String.mk c) "func main(" = false →
        containsSub (String.mk c) "TestMetrics" = false →
        parse_coding_response t (String.mk (fencedBlockNoPath c []))
          = [("exporter.go", pyStrip (String.mk c))]))) ∧
    (∀ (t s : String), scanBlocks s.toList = [] →
      parse_coding_response t s = filesFromAlt (scanAlt s.toList)) ∧
    (∀ (t s : String), scanBlocks s.toList = [] → scanAlt s.toList = [] →
      parse_coding_response t s = []) := by
  have hnb : ('\n' : Char) ≠ btick := by decide
  refine ⟨?_, ?_, ?_, ?_⟩
  · intro t a b c1 c2 ha1 ha2 hb1 hb2 hab hc1 hc1h hc2 hc2h
    have hscan : scanBlocks (fencedBlock a c1 ('\n' :: fencedBlock b c2 []))
        = [(String.mk a, String.mk c1), (String.mk b, String.mk c2)] := by
      rw [scanBlocks_fencedBlock a c1 _ ha1 ha2 hc1 hc1h,
        scanBlocks_cons_skip '\n' _ (by
          rw [isFenceStart_cons_false '\n' _ hnb]
          exact Bool.false_ne_true),
        scanBlocks_fencedBlock b c2 [] hb1 hb2 hc2 hc2h, scanBlocks_nil]
    rw [parse_coding_response,
      show (String.mk (fencedBlock a c1 ('\n' :: fencedBlock b c2
        []))).toList = fencedBlock a c1 ('\n' :: fencedBlock b c2 [])
        from rfl,
      hscan,
      filesFromBlocks_two t _ _ _ _ (mk_ne_empty a ha1)
        (mk_ne_empty b hb1) hab]
    rfl
  · intro t c hc hch hfp
    have hscan : scanBlocks (fencedBlockNoPath c [])
        = [("", String.mk c)] := by
      rw [scanBlocks_fencedBlockNoPath c [] hc hch hfp, scanBlocks_nil]
    have hbase : parse_coding_response t (String.mk (fencedBlockNoPath c []))
        = [(guessPath t (String.mk c), pyStrip (String.mk c))] := by
      rw [parse_coding_response,
        show (String.mk (fencedBlockNoPath c [])).toList
          = fencedBlockNoPath c [] from rfl,
        hscan, filesFromBlocks_single_nopath]
      rfl
    refine ⟨fun hmain => ?_, fun hmain htest => ?_, fun hmain htest => ?_⟩
    · rw [hbase, guessPath, if_pos hmain]
    · rw [hbase, guessPath, if_neg (by rw [hmain]; exact Bool.false_ne_true),
        if_pos htest]
    · rw [hbase, guessPath, if_neg (by rw [hmain]; exact Bool.false_ne_true),
        if_neg (by rw [htest]; exact Bool.false_ne_true)]
  · intro t s h
    rw [parse_coding_response, h]
    rfl
  · intro t s h h2
    rw [parse_coding_response, h, h2]
    rfl

/-- C7 witness: the four parts of the parsing theorem applied at concrete
responses. -/
theorem claim7_witness :
    parse_coding_response "conn"
        (String.mk (fencedBlock "a.ext".toList "x".toList
          ('\n' :: fencedBlock "b.ext".toList "y".toList [])))
      = [("a.ext", "x"), ("b.ext", "y")] ∧
    parse_coding_response "conn"
        (String.mk (fencedBlockNoPath "func main( body".toList []))
      = [("cmd/conn/main.go", "func main( body")] ∧
    parse_coding_response "conn" "no code blocks at all"
      = filesFromAlt (scanAlt ("no code blocks at all").toList) ∧
    parse_coding_response "conn" "nothing" = [] :=
  ⟨claim7_parse_coding_response.1 "conn" "a.ext".toList "b.ext".toList
      "x".toList "y".toList (by decide) (by decide) (by decide) (by decide)
      (by decide) (by decide) (by decide) (by decide) (by decide),
   (claim7_parse_coding_response.2.1 "conn" "func main( body".toList
      (by decide) (by decide) (by decide)).1 (by decide),
   claim7_parse_coding_response.2.2.1 "conn" "no code blocks at all"
      (by decide),
   claim7_parse_coding_response.2.2.2 "conn" "nothing" (by decide)
      (by decide)⟩

end ExporterAgent
